import Mathlib

/-!
# Verification of the SolverForge quickstart web UI client

Shallow embedding of the client-side solving-session controller found in
`src/static/webjars/solverforge/js/solverforge-webui.js`, together with
proofs about its behaviour.

Modelling conventions:
* JS objects become Lean structures; `null`/`undefined` become `Option`.
* JS numbers are modelled exactly: `Int` for integer-valued quantities
  (durations, capacities, weights) and `Rat` for parsed score components
  (the source parses them with `parseFloat`; all claims only involve values
  on which IEEE doubles are exact).
* Network calls and DOM notifications are explicit: functions take the
  outcome of the asynchronous request as a parameter and return the list of
  observable effects they issue (console logging is not tracked).
* The recurring poll timer (`setInterval`/`clearInterval`) is modelled by an
  `Option Nat` handle inside the session state plus a fresh-handle counter.
-/

namespace SolverForge

/-- Severity levels accepted by `showNotification` in the source. -/
inductive NotifLevel where
  | success
  | info
  | warning
  | danger
deriving Repr, DecidableEq

/-- A problem-fact resource (`{name, capacity, skills}` objects in the source). -/
structure Resource where
  name : String
  capacity : Int
  skills : List String
deriving Repr, DecidableEq

/-- A planning-entity task (`{id, name, duration, requiredSkill, resource}` objects).
`resource` is a weak by-name reference, `none` when unassigned; `requiredSkill`
uses the empty string for "no requirement", exactly as the JS code does. -/
structure Task where
  id : String
  name : String
  duration : Int
  requiredSkill : String
  resource : Option String
deriving Repr, DecidableEq

/-- The schedule aggregate handled by the client (`loadedSchedule`'s shape). -/
structure Schedule where
  resources : List Resource
  tasks : List Task
  score : Option String
  solverStatus : Option String
deriving Repr, DecidableEq

/-! ## Models of the JS builtins the source uses -/

/-- Digit run taken greedily from the front of a character list (the `\d*` /
`\d+` pieces of the score regex, and the digit scan of `parseInt`). -/
def takeDigits : List Char → List Char × List Char
  | [] => ([], [])
  | c :: cs =>
    if c.isDigit then
      let p := takeDigits cs
      (c :: p.1, p.2)
    else ([], c :: cs)

/-- Numeric value of a list of decimal digit characters (most significant first). -/
def digitsToNat (ds : List Char) : Nat :=
  ds.foldl (fun a c => 10 * a + (c.toNat - '0'.toNat)) 0

/-- Model of the JS builtin `parseInt(s)` restricted to its decimal behaviour:
skip leading whitespace, optional sign, then a leading digit run; `NaN`
(here `none`) when no digit is found. -/
def parseIntJS (s : String) : Option Int :=
  let cs := s.data.dropWhile (fun c => c.isWhitespace)
  let signed : Bool × List Char :=
    match cs with
    | '-' :: rest => (true, rest)
    | '+' :: rest => (false, rest)
    | _ => (false, cs)
  let p := takeDigits signed.2
  if p.1 = [] then none
  else if signed.1 then some (-(digitsToNat p.1 : Int))
  else some ((digitsToNat p.1 : Int))

/-- Model of the JS builtin `String.prototype.trim`: drop whitespace from both
ends, over the character list (so that concrete inputs evaluate by kernel
reduction; Lean's `String.trim` walks byte positions, which does not). -/
def jsTrim (s : String) : String :=
  ⟨((s.data.dropWhile Char.isWhitespace).reverse.dropWhile Char.isWhitespace).reverse⟩

/-- Model of the JS builtin `String.prototype.toLowerCase` (ASCII range). -/
def jsToLower (s : String) : String :=
  ⟨s.data.map Char.toLower⟩

/-- The JS idiom `x || d` applied to a `parseInt` result: `NaN` (`none`) and
`0` are falsy and fall back to the default. -/
def jsOrInt (v : Option Int) (d : Int) : Int :=
  match v with
  | none => d
  | some n => if n = 0 then d else n

/-! ## Constraint weights (section 16 of the source) -/

/-- Outgoing weight record built by `getConstraintWeights`. -/
structure ConstraintWeights where
  required_skill : Int
  resource_capacity : Int
  minimize_duration : Int
  balance_load : Int
deriving Repr, DecidableEq

/-- The raw string values of the four weight sliders read from the DOM. -/
structure WeightSliders where
  requiredSkill : String
  resourceCapacity : String
  minimizeDuration : String
  balanceLoad : String
deriving Repr, DecidableEq

/-- `getConstraintWeights`: each slider value goes through `parseInt(...) || default`
(100 for the hard constraints, 50 for the soft ones). -/
def getConstraintWeights (s : WeightSliders) : ConstraintWeights :=
  { required_skill := jsOrInt (parseIntJS s.requiredSkill) 100
    resource_capacity := jsOrInt (parseIntJS s.resourceCapacity) 100
    minimize_duration := jsOrInt (parseIntJS s.minimizeDuration) 50
    balance_load := jsOrInt (parseIntJS s.balanceLoad) 50 }

/-! ## Score parsing (`getScoreComponents`) and formatting (`formatScore`) -/

/-- Parsed score components (`{hard, medium, soft}` in the source, all
initialised to 0). -/
structure ScoreComponents where
  hard : Rat
  medium : Rat
  soft : Rat
deriving Repr, DecidableEq

/-- Exact value of a matched number `sign? d1 ('.' d2)?` (the source applies
`parseFloat` to the matched text), i.e. `±(d1 + d2 / 10 ^ |d2|)`.  It is
encoded as a single `mkRat` over natural-number arithmetic so that concrete
score strings evaluate by kernel reduction. -/
def ratOfParts (neg : Bool) (d1 d2 : List Char) : Rat :=
  let mag : Rat := mkRat (digitsToNat d1 * 10 ^ d2.length + digitsToNat d2) (10 ^ d2.length)
  if neg then -mag else mag

/-- The unit alternation `(hard|medium|soft)` of the score regex, matched at the
front of the input. -/
def matchUnit : List Char → Option (String × List Char)
  | 'h' :: 'a' :: 'r' :: 'd' :: rest => some ("hard", rest)
  | 'm' :: 'e' :: 'd' :: 'i' :: 'u' :: 'm' :: rest => some ("medium", rest)
  | 's' :: 'o' :: 'f' :: 't' :: rest => some ("soft", rest)
  | _ => none

/-- The continuation of an anchored regex attempt once the optional sign and the
greedy first digit run `d1` have been taken; `after` is the input remaining
after `d1`.  Backtracking determinises the pattern `-?\d*\.?\d+(hard|medium|soft)`:
either a dot with a nonempty digit run `d2` follows and then the unit, or (no
dot) `d1` is nonempty and the unit follows at once; any shorter split of a
digit run would leave a digit where the unit letter must be, so no other parse
is reachable at this position. -/
def matchAfterDigits (neg : Bool) (d1 after : List Char) :
    Option (Rat × String × List Char) :=
  match after with
  | '.' :: cs3 =>
    if (takeDigits cs3).1 = [] then none
    else
      match matchUnit (takeDigits cs3).2 with
      | some u => some (ratOfParts neg d1 (takeDigits cs3).1, u.1, u.2)
      | none => none
  | other =>
    if d1 = [] then none
    else
      match matchUnit other with
      | some u => some (ratOfParts neg d1 [], u.1, u.2)
      | none => none

/-- One anchored attempt of `(-?\d*\.?\d+)(hard|medium|soft)` at the head of
the input. -/
def matchAt (cs : List Char) : Option (Rat × String × List Char) :=
  match cs with
  | '-' :: rest => matchAfterDigits true (takeDigits rest).1 (takeDigits rest).2
  | _ => matchAfterDigits false (takeDigits cs).1 (takeDigits cs).2

/-- The successive matches produced by `score.matchAll(regex)`: try an anchored
match at each position, and on success resume after the consumed text (every
match is nonempty, so the JS `lastIndex` always advances).  The fuel argument
is only a structural-recursion device: by `matchAt_rest_length` each step
consumes at least one character, so starting the fuel at the input length the
fuel never runs out before the input does (see `matchAllAux_fuel`). -/
def matchAllAux : Nat → List Char → List (Rat × String)
  | 0, _ => []
  | _ + 1, [] => []
  | fuel + 1, c :: cs =>
    match matchAt (c :: cs) with
    | some (v, u, rest) => (v, u) :: matchAllAux fuel rest
    | none => matchAllAux fuel cs

/-- All `(value, unit)` pairs matched in a score string. -/
def matchAllScore (cs : List Char) : List (Rat × String) :=
  matchAllAux cs.length cs

/-- The `matches.forEach(match => components[match[2]] = parseFloat(match[1]))`
loop: later matches for the same unit overwrite earlier ones. -/
def applyMatches : ScoreComponents → List (Rat × String) → ScoreComponents
  | comps, [] => comps
  | comps, (v, u) :: ms =>
    applyMatches
      (if u = "hard" then { comps with hard := v }
       else if u = "medium" then { comps with medium := v }
       else { comps with soft := v }) ms

/-- `getScoreComponents(score)`: zero components when the score is `null`,
`undefined` or not a string (here: `none`), otherwise the regex scan above.
(The source also returns zeros for `""` via the same falsiness guard; an empty
string produces no matches, so the branch is written out only for fidelity.) -/
def getScoreComponents (score : Option String) : ScoreComponents :=
  match score with
  | none => { hard := 0, medium := 0, soft := 0 }
  | some s =>
    if s = "" then { hard := 0, medium := 0, soft := 0 }
    else applyMatches { hard := 0, medium := 0, soft := 0 } (matchAllScore s.data)

/-- Model of JS number-to-string conversion for the values produced here:
integers print without a decimal point.  (Only the integral case matters for
the claims; non-integral rationals are printed as `num/den`, which is where the
model and JS number printing part ways.) -/
def jsNumToString (q : Rat) : String :=
  if q.den = 1 then toString q.num else toString q

/-- `formatScore(score)`: `"?"` for `null`/`undefined`/`""`/`"?"`, otherwise
`hard/soft` built from the parsed components. -/
def formatScore (score : Option String) : String :=
  match score with
  | none => "?"
  | some s =>
    if s = "" ∨ s = "?" then "?"
    else
      jsNumToString (getScoreComponents (some s)).hard ++ "/" ++
        jsNumToString (getScoreComponents (some s)).soft

/-! ## Derived metrics: `countViolations` -/

/-- Truthiness of a JS string-or-null value (`null`, `undefined` and `""` are
falsy). -/
def jsTruthy : Option String → Bool
  | none => false
  | some s => s ≠ ""

/-- `countViolations(schedule)`, translated statement by statement: a single
`violations` accumulator incremented by two `forEach` loops.
* Skill loop: for each task with a truthy `resource` and a truthy
  `requiredSkill`, look the resource up by name; if it is found (its `skills`
  field is total in this model, so the `resource.skills` truthiness guard of
  the source is always passed) and its skills exclude the required skill,
  increment.
* Capacity loop: for each resource, increment if the durations of the tasks
  assigned to it sum to strictly more than its capacity.
The `!schedule.tasks || !schedule.resources` early return of the source guards
against absent fields, which the modelled `Schedule` type makes total. -/
def countViolations (schedule : Schedule) : Nat :=
  let afterSkills := schedule.tasks.foldl
    (fun violations task =>
      if jsTruthy task.resource && task.requiredSkill ≠ "" then
        match schedule.resources.find? (fun r => r.name == (task.resource.getD "")) with
        | some resource =>
          if !(resource.skills.contains task.requiredSkill) then violations + 1 else violations
        | none => violations
      else violations) 0
  schedule.resources.foldl
    (fun violations resource =>
      if ((schedule.tasks.filter (fun t => t.resource == some resource.name)).foldl
            (fun sum t => sum + t.duration) 0) > resource.capacity then
        violations + 1
      else violations) afterSkills

/-- The skill-mismatch condition of `countViolations`, as a predicate: the
task names an existing resource (truthy reference), requires a skill, and the
resource's skill list excludes it. -/
def skillViolationP (s : Schedule) (t : Task) : Bool :=
  jsTruthy t.resource && t.requiredSkill ≠ "" &&
    match s.resources.find? (fun r => r.name == (t.resource.getD "")) with
    | some resource => !(resource.skills.contains t.requiredSkill)
    | none => false

/-- The capacity-overflow condition of `countViolations`, as a predicate. -/
def capacityViolationP (s : Schedule) (r : Resource) : Bool :=
  decide ((((s.tasks.filter (fun t => t.resource == some r.name)).foldl
    (fun sum t => sum + t.duration) 0) > r.capacity))

/-- Violation count as claim C6 words it, amended only in that the task's
`resource` must be non-null and non-empty (JS truthiness) rather than merely
non-null: number of tasks with an assigned resource and a required skill the
named resource's skill list excludes, plus number of overloaded resources. -/
def describedViolations (s : Schedule) : Nat :=
  s.tasks.countP (skillViolationP s) + s.resources.countP (capacityViolationP s)

/-- Violation count exactly as claim C6 words it: the task's `resource` need
only be non-null (`isSome`), not non-empty. -/
def claimedViolations (s : Schedule) : Nat :=
  s.tasks.countP (fun t =>
    t.resource.isSome && t.requiredSkill ≠ "" &&
      match s.resources.find? (fun r => r.name == (t.resource.getD "")) with
      | some resource => !(resource.skills.contains t.requiredSkill)
      | none => false) +
  s.resources.countP (capacityViolationP s)

/-! ## Session state machine (`solve`, `stopSolving`, `refreshSolvingButtons`) -/

/-- Observable effects issued by the controller: user notifications
(`showNotification`) and the HTTP requests sent to the solver service.
`console.*` logging is not tracked. -/
inductive Effect where
  | notify (msg : String) (level : NotifLevel)
  | httpPost (url : String) (payload : Schedule × ConstraintWeights)
  | httpDelete (url : String)
  | httpGet (url : String)
deriving Repr, DecidableEq

/-- The ambient mutable state of the client script: the globals
`loadedSchedule`, `demoDataId`, `scheduleId`, `autoRefreshIntervalId`, plus the
visibility of the solve/stop buttons and the spinner.  `nextIntervalId` is a
fresh-handle allocator standing in for the browser timer ids returned by
`setInterval`. -/
structure SessionState where
  loadedSchedule : Option Schedule
  demoDataId : Option String
  scheduleId : Option String
  autoRefreshIntervalId : Option Nat
  nextIntervalId : Nat
  solveButtonVisible : Bool
  stopButtonVisible : Bool
  spinnerActive : Bool
deriving Repr, DecidableEq

/-- `refreshSolvingButtons(solving)`: toggles the solve/stop buttons and the
spinner, and starts (`setInterval`, if not already polling) or stops
(`clearInterval` followed by nulling the handle) the 2-second polling loop. -/
def refreshSolvingButtons (solving : Bool) (st : SessionState) : SessionState :=
  if solving then
    let st1 := { st with solveButtonVisible := false, stopButtonVisible := true,
                         spinnerActive := true }
    if st1.autoRefreshIntervalId = none then
      { st1 with autoRefreshIntervalId := some st1.nextIntervalId,
                 nextIntervalId := st1.nextIntervalId + 1 }
    else st1
  else
    { st with solveButtonVisible := true, stopButtonVisible := false,
              spinnerActive := false, autoRefreshIntervalId := none }

/-- The synchronous part of `refreshSchedule()`: decide which endpoint to call
and issue the GET (or warn when neither a job nor a dataset is selected).  The
asynchronous response handling is a separate event and is not part of the
claims proved here. -/
def refreshScheduleRequest (st : SessionState) : SessionState × List Effect :=
  match st.scheduleId with
  | some sid => (st, [Effect.httpGet ("/schedules/" ++ sid)])
  | none =>
    match st.demoDataId with
    | none => (st, [Effect.notify "Please select a dataset from the Data dropdown." .warning])
    | some did => (st, [Effect.httpGet ("/demo-data/" ++ did)])

/-- `solve()`: reject with a warning when no schedule is loaded; otherwise POST
the schedule plus the current constraint weights.  `postOutcome` is the outcome
of the asynchronous request: `Except.ok jobId` runs the success callback
(store the job id, switch the UI to solving), `Except.error e` runs the
failure callback (danger notification, switch the UI to idle). -/
def solve (st : SessionState) (sliders : WeightSliders)
    (postOutcome : Except String String) : SessionState × List Effect :=
  match st.loadedSchedule with
  | none => (st, [Effect.notify "No data loaded. Please select a dataset first." .warning])
  | some sched =>
    let payload := (sched, getConstraintWeights sliders)
    match postOutcome with
    | Except.ok jobId =>
      let st1 := refreshSolvingButtons true { st with scheduleId := some jobId }
      (st1, [Effect.httpPost "/schedules" payload,
             Effect.notify "Solver started!" .success])
    | Except.error e =>
      let st1 := refreshSolvingButtons false st
      (st1, [Effect.httpPost "/schedules" payload,
             Effect.notify ("Failed to start solving: " ++ e) .danger])

/-- `stopSolving()`: no-op (console warning only, untracked) without a job id;
otherwise DELETE the job.  On success: switch the UI to idle, issue the final
`refreshSchedule()` fetch, and show an info notification.  On failure: only a
danger notification — the source's `.fail` handler neither stops the polling
loop nor restores the buttons. -/
def stopSolving (st : SessionState) (deleteOutcome : Except String Unit) :
    SessionState × List Effect :=
  match st.scheduleId with
  | none => (st, [])
  | some jobId =>
    match deleteOutcome with
    | Except.ok _ =>
      let st1 := refreshSolvingButtons false st
      let r := refreshScheduleRequest st1
      (r.1, Effect.httpDelete ("/schedules/" ++ jobId) ::
              r.2 ++ [Effect.notify "Solver stopped" .info])
    | Except.error e =>
      (st, [Effect.httpDelete ("/schedules/" ++ jobId),
            Effect.notify ("Failed to stop solving: " ++ e) .danger])

/-! ## Local edit applier (`addResource`, `removeResource`, `addTask`) -/

/-- The empty schedule the source creates when adding to a `null`
`loadedSchedule` (`{ resources: [], tasks: [] }`). -/
def emptySchedule : Schedule :=
  { resources := [], tasks := [], score := none, solverStatus := none }

/-- `addResource()`: reads the modal form (`nameRaw`, `capacityRaw`,
`skillsRaw` are the raw field values), trims and validates the name, rejects
duplicates, then appends the new resource.  Skills are split on commas,
trimmed and lower-cased; capacity goes through `parseInt(...) || 100`. -/
def addResource (loadedSchedule : Option Schedule) (nameRaw capacityRaw skillsRaw : String) :
    Option Schedule × List Effect :=
  let name := jsTrim nameRaw
  let capacity := jsOrInt (parseIntJS capacityRaw) 100
  let skillsStr := jsTrim skillsRaw
  let skills := if skillsStr ≠ "" then (skillsStr.splitOn ",").map (fun s => jsToLower (jsTrim s))
    else []
  if name = "" then
    (loadedSchedule, [Effect.notify "Please enter a resource name" .warning])
  else if (match loadedSchedule with
           | some s => s.resources.any (fun r => r.name == name)
           | none => false) then
    (loadedSchedule, [Effect.notify "A resource with this name already exists" .warning])
  else
    let s := loadedSchedule.getD emptySchedule
    (some { s with resources := s.resources ++ [{ name := name, capacity := capacity,
                                                  skills := skills }] },
     [Effect.notify ("Added resource: " ++ name) .success])

/-- `removeResource(resourceName)`: drop the resource by name, then null out
the `resource` field of every task that referenced it. -/
def removeResource (loadedSchedule : Option Schedule) (resourceName : String) :
    Option Schedule × List Effect :=
  match loadedSchedule with
  | none => (none, [])
  | some s =>
    let s1 := { s with
      resources := s.resources.filter (fun r => r.name != resourceName)
      tasks := s.tasks.map (fun t =>
        if t.resource == some resourceName then { t with resource := none } else t) }
    (some s1, [Effect.notify ("Removed resource: " ++ resourceName) .info])

/-- The `while (existingIds.includes(newId))` loop of `addTask`, searching for
the first free id `task-{c}` upward from `c`.  The fuel argument is a
structural-recursion device: `existingIds.length + 1` candidates can never all
collide with a list of `existingIds.length` ids (`generateTaskId_fresh` below),
so with that fuel the fallback branch is unreachable and the model agrees with
the unbounded JS loop. -/
def generateTaskId (existingIds : List String) : Nat → Nat → String
  | c, 0 => "task-" ++ Nat.repr c
  | c, fuel + 1 =>
    if existingIds.contains ("task-" ++ Nat.repr c) then
      generateTaskId existingIds (c + 1) fuel
    else "task-" ++ Nat.repr c

/-- `addTask()`: reads the modal form, validates the name, generates a fresh
`task-{n}` id starting from `tasks.length + 1`, and appends the new unassigned
task.  Duration goes through `parseInt(...) || 30`; the required skill is
trimmed and lower-cased (the source's `requiredSkill || ''` keeps the empty
string as-is). -/
def addTask (loadedSchedule : Option Schedule) (nameRaw durationRaw skillRaw : String) :
    Option Schedule × List Effect :=
  let name := jsTrim nameRaw
  let duration := jsOrInt (parseIntJS durationRaw) 30
  let requiredSkill := jsToLower (jsTrim skillRaw)
  if name = "" then
    (loadedSchedule, [Effect.notify "Please enter a task name" .warning])
  else
    let s := loadedSchedule.getD emptySchedule
    let existingIds := s.tasks.map (fun t => t.id)
    let newId := generateTaskId existingIds (s.tasks.length + 1) (existingIds.length + 1)
    (some { s with tasks := s.tasks ++ [{ id := newId, name := name, duration := duration,
                                          requiredSkill := requiredSkill, resource := none }] },
     [Effect.notify ("Added task: " ++ name) .success])

/-! ## Score analysis: `renderScoreAnalysis`'s constraint sort -/

/-- One entry of the `scoreAnalysis.constraints` array returned by the
analysis endpoint; `matchList` models the JS field `matches` (a possibly
absent array of opaque match records, irrelevant to the sort; `matches` is a
reserved word in Lean). -/
structure ConstraintAnalysis where
  name : String
  score : Option String
  matchList : Option (List Unit)
deriving Repr, DecidableEq

/-- `Math.abs`, written with the comparison-and-negation the kernel can
evaluate on `Rat`. -/
def jsAbs (q : Rat) : Rat :=
  if q < 0 then -q else q

/-- The comparator passed to `constraints.sort(...)` in `renderScoreAnalysis`:
negative-hard constraints before others, then descending `|hard|`, then
descending `|soft|`; the returned number's sign drives the sort. -/
def compareConstraints (a b : ConstraintAnalysis) : Rat :=
  let aComponents := getScoreComponents a.score
  let bComponents := getScoreComponents b.score
  if aComponents.hard < 0 ∧ 0 ≤ bComponents.hard then -1
  else if 0 ≤ aComponents.hard ∧ bComponents.hard < 0 then 1
  else if jsAbs aComponents.hard ≠ jsAbs bComponents.hard then
    jsAbs bComponents.hard - jsAbs aComponents.hard
  else jsAbs bComponents.soft - jsAbs aComponents.soft

/-- "`a` may stay before `b`" for the comparator: `compareConstraints a b ≤ 0`.
A stable comparator sort keeps `a` before `b` exactly when this holds. -/
def sortLe (a b : ConstraintAnalysis) : Prop :=
  compareConstraints a b ≤ 0

instance : DecidableRel sortLe :=
  fun a b => inferInstanceAs (Decidable (compareConstraints a b ≤ 0))

/-- `Array.prototype.sort` is required to be stable (ES2019); with the
consistent comparator above every stable sort produces the same list, so the
model uses stable insertion sort. -/
def sortConstraints (constraints : List ConstraintAnalysis) : List ConstraintAnalysis :=
  List.insertionSort sortLe constraints

/-- 0 for constraints whose hard component is negative, 1 otherwise: the
primary grouping of the comparator. -/
def hardGroup (c : ConstraintAnalysis) : Nat :=
  if (getScoreComponents c.score).hard < 0 then 0 else 1

/-- The comparator's order, characterised as a lexicographic key: group
(negative-hard first), then descending `|hard|`, then descending `|soft|`. -/
def keyLe (a b : ConstraintAnalysis) : Prop :=
  hardGroup a < hardGroup b ∨
    (hardGroup a = hardGroup b ∧
      (jsAbs (getScoreComponents b.score).hard < jsAbs (getScoreComponents a.score).hard ∨
        (jsAbs (getScoreComponents a.score).hard = jsAbs (getScoreComponents b.score).hard ∧
          jsAbs (getScoreComponents b.score).soft ≤ jsAbs (getScoreComponents a.score).soft)))

instance : DecidableRel keyLe := fun a b => by
  unfold keyLe
  infer_instance

/-! ## Concrete sample data used by witnesses and counterexamples -/

/-- A small loaded schedule (also the violation-counting example of the spec,
extended with an unassigned task and a second resource). -/
def sampleSchedule : Schedule :=
  { resources := [{ name := "A", capacity := 60, skills := ["x"] },
                  { name := "B", capacity := 100, skills := [] }],
    tasks := [{ id := "t1", name := "T1", duration := 40, requiredSkill := "x",
                resource := some "A" },
              { id := "t2", name := "T2", duration := 30, requiredSkill := "y",
                resource := some "A" },
              { id := "t3", name := "T3", duration := 10, requiredSkill := "",
                resource := none }],
    score := none, solverStatus := none }

/-- `sampleSchedule` after `removeResource("A")`. -/
def sampleAfterRemove : Schedule :=
  { resources := [{ name := "B", capacity := 100, skills := [] }],
    tasks := [{ id := "t1", name := "T1", duration := 40, requiredSkill := "x",
                resource := none },
              { id := "t2", name := "T2", duration := 30, requiredSkill := "y",
                resource := none },
              { id := "t3", name := "T3", duration := 10, requiredSkill := "",
                resource := none }],
    score := none, solverStatus := none }

/-- `sampleSchedule` after `addTask("NewTask", "30", "")`. -/
def sampleAfterAdd : Schedule :=
  { resources := [{ name := "A", capacity := 60, skills := ["x"] },
                  { name := "B", capacity := 100, skills := [] }],
    tasks := [{ id := "t1", name := "T1", duration := 40, requiredSkill := "x",
                resource := some "A" },
              { id := "t2", name := "T2", duration := 30, requiredSkill := "y",
                resource := some "A" },
              { id := "t3", name := "T3", duration := 10, requiredSkill := "",
                resource := none },
              { id := "task-4", name := "NewTask", duration := 30, requiredSkill := "",
                resource := none }],
    score := none, solverStatus := none }

/-- The violation-counting example of claim C6. -/
def exampleSchedule : Schedule :=
  { resources := [{ name := "A", capacity := 60, skills := ["x"] }],
    tasks := [{ id := "t1", name := "t1", duration := 40, requiredSkill := "x",
                resource := some "A" },
              { id := "t2", name := "t2", duration := 30, requiredSkill := "y",
                resource := some "A" }],
    score := none, solverStatus := none }

/-- A schedule whose resource is named by the empty string: its task has a
non-null (but falsy) `resource`, separating JS truthiness from null-ness. -/
def emptyNameSchedule : Schedule :=
  { resources := [{ name := "", capacity := 100, skills := ["x"] }],
    tasks := [{ id := "t1", name := "t1", duration := 1, requiredSkill := "y",
                resource := some "" }],
    score := none, solverStatus := none }

/-- A session with nothing loaded. -/
def idleState : SessionState :=
  { loadedSchedule := none, demoDataId := none, scheduleId := none,
    autoRefreshIntervalId := none, nextIntervalId := 0, solveButtonVisible := true,
    stopButtonVisible := false, spinnerActive := false }

/-- A session in the middle of solving: job handle set, polling active, stop
button shown. -/
def solvingState : SessionState :=
  { loadedSchedule := some sampleSchedule, demoDataId := some "demo",
    scheduleId := some "job-1", autoRefreshIntervalId := some 7, nextIntervalId := 8,
    solveButtonVisible := false, stopButtonVisible := true, spinnerActive := true }

/-- The constraints of the spec's analysis-sort example. -/
def exCap : ConstraintAnalysis :=
  { name := "Cap", score := some "-1hard/0soft", matchList := none }

def exBal : ConstraintAnalysis :=
  { name := "Bal", score := some "0hard/-20soft", matchList := none }

def exSkill : ConstraintAnalysis :=
  { name := "Skill", score := some "-3hard/0soft", matchList := none }

/-- Two violated hard constraints with equal `|hard|` but different `|soft|`:
a tie by claim C5's ordering, distinguished only by the soft components. -/
def tieA : ConstraintAnalysis :=
  { name := "A", score := some "-1hard/0soft", matchList := none }

def tieB : ConstraintAnalysis :=
  { name := "B", score := some "-1hard/-5soft", matchList := none }

/-! ## Theorems: parser termination bounds and loop-model faithfulness -/

theorem takeDigits_snd_length (cs : List Char) : (takeDigits cs).2.length ≤ cs.length := by
  induction cs with
  | nil => simp [takeDigits]
  | cons c cs ih =>
    simp only [takeDigits]
    split
    · simpa using Nat.le_succ_of_le ih
    · simp

theorem matchUnit_snd_length {cs rest : List Char} {u : String}
    (h : matchUnit cs = some (u, rest)) : rest.length < cs.length := by
  unfold matchUnit at h
  split at h <;> simp_all <;> omega

theorem matchAfterDigits_rest_length {neg : Bool} {d1 after rest : List Char}
    {v : Rat} {u : String} (h : matchAfterDigits neg d1 after = some (v, u, rest)) :
    rest.length < after.length := by
  unfold matchAfterDigits at h
  split at h
  · rename_i cs3
    have h2 : (takeDigits cs3).2.length ≤ cs3.length := takeDigits_snd_length cs3
    split at h
    · exact absurd h (by simp)
    · split at h
      · rename_i u2 hu
        rcases u2 with ⟨us, urest⟩
        have h3 := matchUnit_snd_length hu
        simp only [Option.some_inj, Prod.mk.injEq] at h
        obtain ⟨-, -, hr⟩ := h
        subst hr
        simp only [List.length_cons]
        omega
      · exact absurd h (by simp)
  · split at h
    · exact absurd h (by simp)
    · split at h
      · rename_i u2 hu
        rcases u2 with ⟨us, urest⟩
        have h3 := matchUnit_snd_length hu
        simp only [Option.some_inj, Prod.mk.injEq] at h
        obtain ⟨-, -, hr⟩ := h
        subst hr
        omega
      · exact absurd h (by simp)

/-- Every successful anchored match consumes at least one character. -/
theorem matchAt_rest_length {cs rest : List Char} {v : Rat} {u : String}
    (h : matchAt cs = some (v, u, rest)) : rest.length < cs.length := by
  unfold matchAt at h
  split at h
  · rename_i rest0
    have h1 : (takeDigits rest0).2.length ≤ rest0.length := takeDigits_snd_length rest0
    have h2 := matchAfterDigits_rest_length h
    simp only [List.length_cons]
    omega
  · have h1 : (takeDigits cs).2.length ≤ cs.length := takeDigits_snd_length cs
    have h2 := matchAfterDigits_rest_length h
    omega

/-- Any fuel at least the input length gives the same match list, so
`matchAllScore` below faithfully models the unbounded JS scan. -/
theorem matchAllAux_fuel : ∀ (fuel1 fuel2 : Nat) (cs : List Char),
    cs.length ≤ fuel1 → cs.length ≤ fuel2 → matchAllAux fuel1 cs = matchAllAux fuel2 cs := by
  intro fuel1
  induction fuel1 using Nat.strong_induction_on with
  | _ fuel1 ih =>
    intro fuel2 cs h1 h2
    match fuel1, fuel2, cs with
    | 0, 0, cs => rfl
    | 0, f2 + 1, cs =>
      have : cs = [] := List.length_eq_zero.mp (Nat.le_zero.mp h1)
      subst this
      rfl
    | f1 + 1, 0, cs =>
      have : cs = [] := List.length_eq_zero.mp (Nat.le_zero.mp h2)
      subst this
      rfl
    | f1 + 1, f2 + 1, [] => rfl
    | f1 + 1, f2 + 1, c :: cs =>
      simp only [matchAllAux]
      rcases hm : matchAt (c :: cs) with _ | ⟨v, u, rest⟩
      · simp only [List.length_cons] at h1 h2
        exact ih f1 (Nat.lt_succ_self f1) f2 cs (by omega) (by omega)
      · have hlen := matchAt_rest_length hm
        simp only [List.length_cons] at h1 h2 hlen
        exact congrArg _ (ih f1 (Nat.lt_succ_self f1) f2 rest (by omega) (by omega))

theorem foldl_if_count {α : Type} (p : α → Bool) :
    ∀ (l : List α) (init : Nat),
      l.foldl (fun n a => if p a then n + 1 else n) init = init + l.countP p := by
  intro l
  induction l with
  | nil =>
    intro init
    simp
  | cons a l ih =>
    intro init
    simp only [List.foldl_cons, List.countP_cons]
    by_cases h : p a
    · rw [if_pos h, ih]
      simp [h]
      omega
    · rw [if_neg h, ih]
      simp [h]

/-- The two accumulator loops of `countViolations` count exactly the tasks and
resources satisfying the two violation predicates. -/
theorem countViolations_eq_described (s : Schedule) :
    countViolations s = describedViolations s := by
  have hstep1 : (fun (violations : Nat) (task : Task) =>
      if jsTruthy task.resource && task.requiredSkill ≠ "" then
        match s.resources.find? (fun r => r.name == (task.resource.getD "")) with
        | some resource =>
          if !(resource.skills.contains task.requiredSkill) then violations + 1 else violations
        | none => violations
      else violations) =
      (fun violations task => if skillViolationP s task then violations + 1 else violations) := by
    funext violations task
    by_cases h1 : jsTruthy task.resource = true
    · by_cases h2 : task.requiredSkill = ""
      · simp [skillViolationP, h1, h2]
      · rcases hf : s.resources.find? (fun r => r.name == (task.resource.getD "")) with _ | r
        · simp [skillViolationP, h1, h2, hf]
        · simp [skillViolationP, h1, h2, hf]
    · simp [skillViolationP, h1]
  have hstep2 : (fun (violations : Nat) (resource : Resource) =>
      if ((s.tasks.filter (fun t => t.resource == some resource.name)).foldl
            (fun sum t => sum + t.duration) 0) > resource.capacity then
        violations + 1
      else violations) =
      (fun violations resource =>
        if capacityViolationP s resource then violations + 1 else violations) := by
    funext violations resource
    by_cases h : ((s.tasks.filter (fun t => t.resource == some resource.name)).foldl
        (fun sum t => sum + t.duration) 0) > resource.capacity
    · simp [capacityViolationP, h]
    · simp [capacityViolationP, h]
  unfold countViolations describedViolations
  rw [hstep1, hstep2, foldl_if_count, foldl_if_count]
  omega

theorem sortLe_iff_keyLe (a b : ConstraintAnalysis) : sortLe a b ↔ keyLe a b := by
  have tail : ∀ A B S T : Rat,
      ((if A ≠ B then B - A else T - S) ≤ 0 ↔ (B < A ∨ (A = B ∧ T ≤ S))) := by
    intro A B S T
    by_cases h : A = B
    · rw [if_neg (by simpa using h)]
      subst h
      constructor
      · intro hle
        exact Or.inr ⟨rfl, sub_nonpos.mp hle⟩
      · rintro (hlt | ⟨-, hle⟩)
        · exact absurd hlt (lt_irrefl _)
        · exact sub_nonpos.mpr hle
    · rw [if_pos h]
      constructor
      · intro hle
        exact Or.inl (lt_of_le_of_ne (sub_nonpos.mp hle) (Ne.symm h))
      · rintro (hlt | ⟨heq, -⟩)
        · exact sub_nonpos.mpr hlt.le
        · exact absurd heq h
  have key : ∀ ah bh as bs : Rat,
      ((if ah < 0 ∧ 0 ≤ bh then (-1 : Rat)
        else if 0 ≤ ah ∧ bh < 0 then 1
        else if jsAbs ah ≠ jsAbs bh then jsAbs bh - jsAbs ah
        else jsAbs bs - jsAbs as) ≤ 0 ↔
       ((if ah < 0 then (0 : Nat) else 1) < (if bh < 0 then (0 : Nat) else 1) ∨
        ((if ah < 0 then (0 : Nat) else 1) = (if bh < 0 then (0 : Nat) else 1) ∧
          (jsAbs bh < jsAbs ah ∨ (jsAbs ah = jsAbs bh ∧ jsAbs bs ≤ jsAbs as))))) := by
    intro ah bh as bs
    rcases lt_or_le ah 0 with ha | ha <;> rcases lt_or_le bh 0 with hb | hb
    · rw [if_neg (fun hc => absurd hc.2 (not_le.mpr hb)),
        if_neg (fun hc => absurd ha (not_lt.mpr hc.1)), if_pos ha, if_pos hb,
        tail (jsAbs ah) (jsAbs bh) (jsAbs as) (jsAbs bs)]
      simp
    · rw [if_pos ⟨ha, hb⟩, if_pos ha, if_neg (not_lt.mpr hb)]
      constructor
      · intro _
        exact Or.inl Nat.zero_lt_one
      · intro _
        norm_num
    · rw [if_neg (fun hc => absurd hc.1 (not_lt.mpr ha)), if_pos ⟨ha, hb⟩,
        if_neg (not_lt.mpr ha), if_pos hb]
      constructor
      · intro h
        exact absurd h (by norm_num)
      · rintro (h | ⟨h, -⟩) <;> omega
    · rw [if_neg (fun hc => absurd hc.1 (not_lt.mpr ha)),
        if_neg (fun hc => absurd hc.2 (not_lt.mpr hb)), if_neg (not_lt.mpr ha),
        if_neg (not_lt.mpr hb), tail (jsAbs ah) (jsAbs bh) (jsAbs as) (jsAbs bs)]
      simp
  exact key (getScoreComponents a.score).hard (getScoreComponents b.score).hard
    (getScoreComponents a.score).soft (getScoreComponents b.score).soft

theorem keyLe_total (a b : ConstraintAnalysis) : keyLe a b ∨ keyLe b a := by
  unfold keyLe
  rcases Nat.lt_trichotomy (hardGroup a) (hardGroup b) with h | h | h
  · exact Or.inl (Or.inl h)
  · rcases lt_trichotomy (jsAbs (getScoreComponents b.score).hard)
      (jsAbs (getScoreComponents a.score).hard) with hh | hh | hh
    · exact Or.inl (Or.inr ⟨h, Or.inl hh⟩)
    · rcases le_total (jsAbs (getScoreComponents b.score).soft)
        (jsAbs (getScoreComponents a.score).soft) with hs | hs
      · exact Or.inl (Or.inr ⟨h, Or.inr ⟨hh.symm, hs⟩⟩)
      · exact Or.inr (Or.inr ⟨h.symm, Or.inr ⟨hh, hs⟩⟩)
    · exact Or.inr (Or.inr ⟨h.symm, Or.inl hh⟩)
  · exact Or.inr (Or.inl h)

theorem keyLe_trans (a b c : ConstraintAnalysis) (hab : keyLe a b) (hbc : keyLe b c) :
    keyLe a c := by
  unfold keyLe at hab hbc ⊢
  rcases hab with h1 | ⟨h1, hab⟩
  · rcases hbc with h2 | ⟨h2, -⟩
    · exact Or.inl (lt_trans h1 h2)
    · exact Or.inl (h2 ▸ h1)
  · rcases hbc with h2 | ⟨h2, hbc⟩
    · exact Or.inl (h1 ▸ h2)
    · refine Or.inr ⟨h1.trans h2, ?_⟩
      rcases hab with hab | ⟨hab1, hab2⟩
      · rcases hbc with hbc | ⟨hbc1, -⟩
        · exact Or.inl (lt_trans hbc hab)
        · exact Or.inl (hbc1 ▸ hab)
      · rcases hbc with hbc | ⟨hbc1, hbc2⟩
        · exact Or.inl (hab1 ▸ hbc)
        · exact Or.inr ⟨hab1.trans hbc1, le_trans hbc2 hab2⟩

instance : IsTotal ConstraintAnalysis sortLe :=
  ⟨fun a b => by
    rw [sortLe_iff_keyLe, sortLe_iff_keyLe]
    exact keyLe_total a b⟩

instance : IsTrans ConstraintAnalysis sortLe :=
  ⟨fun a b c hab hbc =>
    (sortLe_iff_keyLe a c).mpr
      (keyLe_trans a b c ((sortLe_iff_keyLe a b).mp hab) ((sortLe_iff_keyLe b c).mp hbc))⟩

theorem orderedInsert_congr {α : Type} {r s : α → α → Prop}
    [DecidableRel r] [DecidableRel s] (hrs : ∀ x y, r x y ↔ s x y) (a : α) :
    ∀ l : List α, l.orderedInsert r a = l.orderedInsert s a := by
  intro l
  induction l with
  | nil => rfl
  | cons b l ih =>
    simp only [List.orderedInsert]
    by_cases h : r a b
    · rw [if_pos h, if_pos ((hrs a b).mp h)]
    · rw [if_neg h, if_neg (fun h2 => h ((hrs a b).mpr h2)), ih]

theorem insertionSort_congr {α : Type} {r s : α → α → Prop}
    [DecidableRel r] [DecidableRel s] (hrs : ∀ x y, r x y ↔ s x y) :
    ∀ l : List α, l.insertionSort r = l.insertionSort s := by
  intro l
  induction l with
  | nil => rfl
  | cons b l ih =>
    simp only [List.insertionSort]
    rw [ih, orderedInsert_congr hrs]

/-- Computation bridge: the comparator sort coincides with insertion sort by
the (kernel-evaluable) lexicographic key. -/
theorem sortConstraints_eq (l : List ConstraintAnalysis) :
    sortConstraints l = List.insertionSort keyLe l :=
  insertionSort_congr sortLe_iff_keyLe l

/-! ## Correctness of generated task ids

`addTask` builds ids of the form `task-{n}` with the decimal printing of `n`
(`Nat.repr`); the freshness argument needs that decimal printing is injective,
which we prove by exhibiting `digitsToNat` as a left inverse. -/

theorem toDigitsCore_append (b : Nat) :
    ∀ (fuel n : Nat) (acc : List Char),
      Nat.toDigitsCore b fuel n acc = Nat.toDigitsCore b fuel n [] ++ acc := by
  intro fuel
  induction fuel with
  | zero =>
    intro n acc
    simp [Nat.toDigitsCore]
  | succ fuel ih =>
    intro n acc
    simp only [Nat.toDigitsCore]
    by_cases h : n / b = 0
    · simp [h]
    · rw [if_neg h, if_neg h, ih (n / b) (Nat.digitChar (n % b) :: acc),
        ih (n / b) [Nat.digitChar (n % b)]]
      simp

theorem digitsToNat_append (l : List Char) (c : Char) :
    digitsToNat (l ++ [c]) = 10 * digitsToNat l + (c.toNat - '0'.toNat) := by
  unfold digitsToNat
  rw [List.foldl_append]
  rfl

theorem digitChar_val : ∀ m : Nat, m < 10 → ((Nat.digitChar m).toNat - '0'.toNat) = m := by
  decide

theorem digitsToNat_toDigitsCore :
    ∀ fuel n : Nat, n ≤ fuel → digitsToNat (Nat.toDigitsCore 10 fuel n []) = n := by
  intro fuel
  induction fuel with
  | zero =>
    intro n hn
    have : n = 0 := Nat.le_zero.mp hn
    subst this
    simp [Nat.toDigitsCore, digitsToNat]
  | succ fuel ih =>
    intro n hn
    simp only [Nat.toDigitsCore]
    by_cases h : n / 10 = 0
    · rw [if_pos h]
      have hone : digitsToNat [Nat.digitChar (n % 10)] =
          (Nat.digitChar (n % 10)).toNat - '0'.toNat := by
        unfold digitsToNat
        simp
      rw [hone, digitChar_val _ (Nat.mod_lt _ (by norm_num))]
      omega
    · rw [if_neg h, toDigitsCore_append 10 fuel (n / 10) [Nat.digitChar (n % 10)],
        digitsToNat_append, ih (n / 10) (by omega),
        digitChar_val _ (Nat.mod_lt _ (by norm_num))]
      omega

theorem digitsToNat_repr (n : Nat) : digitsToNat (Nat.repr n).data = n := by
  unfold Nat.repr Nat.toDigits
  exact digitsToNat_toDigitsCore (n + 1) n (Nat.le_succ n)

theorem taskId_injective {m n : Nat}
    (h : "task-" ++ Nat.repr m = "task-" ++ Nat.repr n) : m = n := by
  have hd := congrArg String.data h
  rw [String.data_append, String.data_append] at hd
  have hdata := List.append_cancel_left hd
  have h2 : digitsToNat (Nat.repr m).data = digitsToNat (Nat.repr n).data := by
    rw [hdata]
  rwa [digitsToNat_repr, digitsToNat_repr] at h2

theorem contains_iff_mem_str (ids : List String) (x : String) :
    ids.contains x = true ↔ x ∈ ids := by
  simp [List.contains, List.elem_iff]

/-- The id search returns a `task-{n}` id that is free, provided some candidate
within the fuel budget is free. -/
theorem generateTaskId_spec (ids : List String) :
    ∀ (fuel c : Nat), (∃ k, k < fuel ∧ ("task-" ++ Nat.repr (c + k)) ∉ ids) →
      generateTaskId ids c fuel ∉ ids ∧
        ∃ n, generateTaskId ids c fuel = "task-" ++ Nat.repr n := by
  intro fuel
  induction fuel with
  | zero =>
    rintro c ⟨k, hk, -⟩
    omega
  | succ fuel ih =>
    rintro c ⟨k, hk, hfree⟩
    simp only [generateTaskId]
    by_cases h : ids.contains ("task-" ++ Nat.repr c) = true
    · rw [if_pos h]
      apply ih (c + 1)
      have hk0 : k ≠ 0 := by
        rintro rfl
        rw [Nat.add_zero] at hfree
        exact hfree ((contains_iff_mem_str ids _).mp h)
      refine ⟨k - 1, by omega, ?_⟩
      rw [show c + 1 + (k - 1) = c + k by omega]
      exact hfree
    · rw [if_neg h]
      exact ⟨fun hmem => h ((contains_iff_mem_str ids _).mpr hmem), c, rfl⟩

/-- Pigeonhole: among `ids.length + 1` distinct candidate ids at least one is
not in `ids`. -/
theorem exists_free_taskId (ids : List String) (c : Nat) :
    ∃ k, k < ids.length + 1 ∧ ("task-" ++ Nat.repr (c + k)) ∉ ids := by
  by_contra hcon
  push_neg at hcon
  have hinj : Function.Injective (fun k : Nat => "task-" ++ Nat.repr (c + k)) := by
    intro x y hxy
    have := taskId_injective hxy
    omega
  have hnodup :
      ((List.range (ids.length + 1)).map (fun k => "task-" ++ Nat.repr (c + k))).Nodup :=
    (List.nodup_range _).map hinj
  have hsub :
      ((List.range (ids.length + 1)).map (fun k => "task-" ++ Nat.repr (c + k))) ⊆ ids := by
    intro x hx
    rcases List.mem_map.mp hx with ⟨k, hk, rfl⟩
    exact hcon k (List.mem_range.mp hk)
  have hlen := (List.subperm_of_subset hnodup hsub).length_le
  simp at hlen

/-- The generated id is fresh and of the form `task-{n}` (also shows the fuel
budget `existingIds.length + 1` of the model never runs out, so the model
agrees with the source's unbounded `while` loop). -/
theorem generateTaskId_fresh (ids : List String) (c : Nat) :
    generateTaskId ids c (ids.length + 1) ∉ ids ∧
      ∃ n, generateTaskId ids c (ids.length + 1) = "task-" ++ Nat.repr n :=
  generateTaskId_spec ids (ids.length + 1) c (exists_free_taskId ids c)

/-! ## Helper lemmas for the session claims -/

theorem refreshScheduleRequest_fst (st : SessionState) : (refreshScheduleRequest st).1 = st := by
  unfold refreshScheduleRequest
  rcases h1 : st.scheduleId with _ | sid
  · rcases h2 : st.demoDataId with _ | did <;> simp
  · simp

theorem jsOrInt_ne_zero (v : Option Int) (d : Int) (hd : d ≠ 0) : jsOrInt v d ≠ 0 := by
  rcases v with _ | n
  · simpa [jsOrInt] using hd
  · by_cases h : n = 0
    · simpa [jsOrInt, h] using hd
    · simp [jsOrInt, h]

theorem jsOrInt_default (v : Option Int) (d : Int) (h : v = none ∨ v = some 0) :
    jsOrInt v d = d := by
  rcases h with h | h <;> simp [h, jsOrInt]

/-! ## Claim theorems -/

/-- C1 (counterexample): in a solving session, when the DELETE termination
request fails, `stopSolving` does not transition to the not-solving state:
the polling handle is still set, the solve button stays hidden and the stop
button stays shown — contradicting the claim that the stop operation always
transitions to `DatasetLoaded` even when the DELETE fails. -/
theorem claim_C1_counterexample :
    (stopSolving solvingState (Except.error "network down")).1.autoRefreshIntervalId = some 7 ∧
    (stopSolving solvingState (Except.error "network down")).1.solveButtonVisible = false ∧
    (stopSolving solvingState (Except.error "network down")).1.stopButtonVisible = true := by
  refine ⟨rfl, rfl, rfl⟩

/-- C1 (amended): when a job id is set, `stopSolving` transitions to the
not-solving state (polling stopped, solve button shown, stop button hidden,
spinner off) exactly when the DELETE succeeds; when the DELETE fails, the
failure is reported with a danger notification and the session state is left
entirely unchanged (still solving). -/
theorem claim_C1_stop_best_effort (st : SessionState) (jobId : String)
    (h : st.scheduleId = some jobId) :
    ((stopSolving st (Except.ok ())).1.autoRefreshIntervalId = none ∧
     (stopSolving st (Except.ok ())).1.solveButtonVisible = true ∧
     (stopSolving st (Except.ok ())).1.stopButtonVisible = false ∧
     (stopSolving st (Except.ok ())).1.spinnerActive = false ∧
     (stopSolving st (Except.ok ())).2 =
       [Effect.httpDelete ("/schedules/" ++ jobId),
        Effect.httpGet ("/schedules/" ++ jobId),
        Effect.notify "Solver stopped" NotifLevel.info]) ∧
    (∀ e : String, (stopSolving st (Except.error e)).1 = st ∧
      (stopSolving st (Except.error e)).2 =
        [Effect.httpDelete ("/schedules/" ++ jobId),
         Effect.notify ("Failed to stop solving: " ++ e) NotifLevel.danger]) := by
  have hid : (refreshSolvingButtons false st).scheduleId = some jobId := h
  have hok : (stopSolving st (Except.ok ())).1 = refreshSolvingButtons false st := by
    unfold stopSolving
    rw [h]
    exact refreshScheduleRequest_fst _
  constructor
  · refine ⟨?_, ?_, ?_, ?_, ?_⟩
    · rw [hok]
      exact rfl
    · rw [hok]
      exact rfl
    · rw [hok]
      exact rfl
    · rw [hok]
      exact rfl
    · simp only [stopSolving, h, refreshScheduleRequest, hid]
      rfl
  · intro e
    unfold stopSolving
    rw [h]
    exact ⟨rfl, rfl⟩

theorem claim_C1_witness :
    (stopSolving solvingState (Except.error "boom")).1 = solvingState ∧
    (stopSolving solvingState (Except.ok ())).1.autoRefreshIntervalId = none :=
  ⟨((claim_C1_stop_best_effort solvingState "job-1" rfl).2 "boom").1,
   (claim_C1_stop_best_effort solvingState "job-1" rfl).1.1⟩

/-- C2: after `removeResource(r)` on a loaded schedule, no task references
`r`, no resource named `r` remains, and every task that referenced `r` is
still present with its `resource` reset to null. -/
theorem claim_C2_removeResource_integrity (s s2 : Schedule) (r : String)
    (h : (removeResource (some s) r).1 = some s2) :
    (∀ t ∈ s2.tasks, t.resource ≠ some r) ∧
    (∀ res ∈ s2.resources, res.name ≠ r) ∧
    (∀ t ∈ s.tasks, t.resource = some r → { t with resource := none } ∈ s2.tasks) := by
  unfold removeResource at h
  have h2 := Option.some_inj.mp h
  subst h2
  refine ⟨?_, ?_, ?_⟩
  · intro t ht
    simp only [List.mem_map] at ht
    rcases ht with ⟨t0, -, rfl⟩
    by_cases hc : t0.resource = some r
    · rw [if_pos (beq_iff_eq.mpr hc)]
      simp
    · rw [if_neg (fun hb => hc (beq_iff_eq.mp hb))]
      exact hc
  · intro res hres
    have := (List.mem_filter.mp hres).2
    exact bne_iff_ne.mp this
  · intro t ht htr
    simp only [List.mem_map]
    exact ⟨t, ht, by rw [if_pos (beq_iff_eq.mpr htr)]⟩

theorem claim_C2_witness :
    (∀ t ∈ sampleAfterRemove.tasks, t.resource ≠ some "A") ∧
    (∀ res ∈ sampleAfterRemove.resources, res.name ≠ "A") ∧
    (∀ t ∈ sampleSchedule.tasks, t.resource = some "A" →
      { t with resource := none } ∈ sampleAfterRemove.tasks) :=
  claim_C2_removeResource_integrity sampleSchedule sampleAfterRemove "A" (by decide)

/-- C3: with no loaded schedule, `solve` only emits the warning notification:
the state (in particular `scheduleId`) is unchanged and no POST is issued,
whatever the would-be request outcome. -/
theorem claim_C3_solve_requires_schedule (st : SessionState) (sliders : WeightSliders)
    (outcome : Except String String) (h : st.loadedSchedule = none) :
    solve st sliders outcome =
      (st, [Effect.notify "No data loaded. Please select a dataset first."
              NotifLevel.warning]) := by
  unfold solve
  rw [h]

theorem claim_C3_witness :
    solve idleState ⟨"100", "100", "50", "50"⟩ (Except.ok "job-1") =
      (idleState, [Effect.notify "No data loaded. Please select a dataset first."
        NotifLevel.warning]) :=
  claim_C3_solve_requires_schedule idleState ⟨"100", "100", "50", "50"⟩
    (Except.ok "job-1") rfl

/-- C4: adding a resource whose (trimmed) name matches an existing resource is
rejected: the schedule is returned unchanged and the only effect is a single
warning notification. -/
theorem claim_C4_duplicate_resource_rejected (s : Schedule)
    (nameRaw capacityRaw skillsRaw : String)
    (h : ∃ r ∈ s.resources, r.name = jsTrim nameRaw) :
    (addResource (some s) nameRaw capacityRaw skillsRaw).1 = some s ∧
    ∃ msg, (addResource (some s) nameRaw capacityRaw skillsRaw).2 =
      [Effect.notify msg NotifLevel.warning] := by
  rcases h with ⟨r0, hr0, hname⟩
  simp only [addResource]
  by_cases hempty : jsTrim nameRaw = ""
  · rw [if_pos hempty]
    exact ⟨rfl, _, rfl⟩
  · rw [if_neg hempty]
    have hdup : s.resources.any (fun r => r.name == jsTrim nameRaw) = true :=
      List.any_eq_true.mpr ⟨r0, hr0, beq_iff_eq.mpr hname⟩
    rw [if_pos hdup]
    exact ⟨rfl, _, rfl⟩

theorem claim_C4_witness :
    (addResource (some sampleSchedule) "A" "75" "x,y").1 = some sampleSchedule ∧
    ∃ msg, (addResource (some sampleSchedule) "A" "75" "x,y").2 =
      [Effect.notify msg NotifLevel.warning] :=
  claim_C4_duplicate_resource_rejected sampleSchedule "A" "75" "x,y" (by decide)

/-- C5 (counterexample): `tieA` and `tieB` are both violated hard constraints
with equal `|hard|` — by the claim's ordering a tie, to be broken by the
original server order, so `[tieA, tieB]` should stay `["A", "B"]` — yet the
sort returns `["B", "A"]` because the comparator also compares `|soft|` inside
the violated-hard group. -/
theorem claim_C5_counterexample :
    hardGroup tieA = 0 ∧ hardGroup tieB = 0 ∧
    jsAbs (getScoreComponents tieA.score).hard = jsAbs (getScoreComponents tieB.score).hard ∧
    (sortConstraints [tieA, tieB]).map ConstraintAnalysis.name = ["B", "A"] := by
  refine ⟨by decide, by decide, by decide, ?_⟩
  rw [sortConstraints_eq]
  decide

/-- C5 (amended): the display sort permutes the constraints into an order that
is sorted by: violated hard constraints (negative hard component) first, then
descending `|hard|`, then descending `|soft|`; it is stable, i.e. any pair
already in key order keeps its relative order; and on the spec's example it
returns `["Skill", "Cap", "Bal"]`. -/
theorem claim_C5_sort_characterization :
    (∀ l : List ConstraintAnalysis,
      (sortConstraints l).Perm l ∧ (sortConstraints l).Pairwise keyLe) ∧
    (∀ (a b : ConstraintAnalysis) (l : List ConstraintAnalysis),
      keyLe a b → [a, b].Sublist l → [a, b].Sublist (sortConstraints l)) ∧
    (sortConstraints [exCap, exBal, exSkill]).map ConstraintAnalysis.name =
      ["Skill", "Cap", "Bal"] := by
  refine ⟨fun l => ⟨?_, ?_⟩, ?_, ?_⟩
  · exact List.perm_insertionSort sortLe l
  · exact (List.sorted_insertionSort sortLe l).imp fun hab => (sortLe_iff_keyLe _ _).mp hab
  · intro a b l hab hsub
    exact List.pair_sublist_insertionSort ((sortLe_iff_keyLe a b).mpr hab) hsub
  · rw [sortConstraints_eq]
    decide

theorem claim_C5_witness :
    [exCap, exBal].Sublist (sortConstraints [exCap, exBal, exSkill]) :=
  claim_C5_sort_characterization.2.1 exCap exBal [exCap, exBal, exSkill]
    (by decide) (by decide)

/-- C6 (counterexample): on a schedule whose resource is named `""` and whose
task has the non-null resource reference `some ""` together with an unmet
required skill, the claim's description counts one violation, but
`countViolations` counts none — the source tests JS truthiness
(`task.resource &&`), not null-ness, so the empty-string reference is
skipped. -/
theorem claim_C6_counterexample :
    countViolations emptyNameSchedule = 0 ∧ claimedViolations emptyNameSchedule = 1 := by
  refine ⟨by decide, by decide⟩

/-- C6 (amended): `countViolations` returns the number of tasks with a
non-null, non-empty resource reference and a non-empty required skill that the
named resource's skill list excludes, plus the number of resources whose
assigned tasks' durations sum to strictly more than their capacity; on the
claim's example it returns 2. -/
theorem claim_C6_countViolations_description :
    (∀ s : Schedule, countViolations s = describedViolations s) ∧
    countViolations exampleSchedule = 2 := by
  refine ⟨countViolations_eq_described, by decide⟩

/-- C7: `getScoreComponents` applied to the score string "-2hard" ++ "/" ++
"-15soft" has hard component `-2` and soft component `-15`, and `formatScore`
of a null/absent score is `"?"`. -/
theorem claim_C7_score_parsing :
    (getScoreComponents (some "-2hard/-15soft")).hard = -2 ∧
    (getScoreComponents (some "-2hard/-15soft")).soft = -15 ∧
    formatScore none = "?" := by
  refine ⟨by decide, by decide, rfl⟩

/-- C8: `refreshSolvingButtons(false)` is idempotent — a second call changes
nothing — and its result always has the polling handle cleared, the solve
button shown and the stop button hidden; stopping an already-stopped loop is a
no-op, not an error. -/
theorem claim_C8_stop_idempotent (st : SessionState) :
    refreshSolvingButtons false (refreshSolvingButtons false st) =
      refreshSolvingButtons false st ∧
    (refreshSolvingButtons false st).autoRefreshIntervalId = none ∧
    (refreshSolvingButtons false st).solveButtonVisible = true ∧
    (refreshSolvingButtons false st).stopButtonVisible = false :=
  ⟨rfl, rfl, rfl, rfl⟩

/-- C9: on a loaded schedule whose task ids are pairwise distinct, `addTask`
keeps them pairwise distinct; when the task name validates, the new task gets
an id of the form `task-{n}` that differs from every existing id. -/
theorem claim_C9_addTask_fresh_ids (s s2 : Schedule) (nameRaw durationRaw skillRaw : String)
    (hnodup : (s.tasks.map Task.id).Nodup)
    (h : (addTask (some s) nameRaw durationRaw skillRaw).1 = some s2) :
    (s2.tasks.map Task.id).Nodup ∧
    (jsTrim nameRaw ≠ "" →
      ∃ n : Nat, s2.tasks.map Task.id = s.tasks.map Task.id ++ ["task-" ++ Nat.repr n] ∧
        ("task-" ++ Nat.repr n) ∉ s.tasks.map Task.id) := by
  simp only [addTask, Option.getD_some] at h
  by_cases hname : jsTrim nameRaw = ""
  · rw [if_pos hname] at h
    have h2 := Option.some_inj.mp h
    subst h2
    exact ⟨hnodup, fun hc => absurd hname hc⟩
  · rw [if_neg hname] at h
    have h2 := Option.some_inj.mp h
    subst h2
    obtain ⟨hfree, n, hid⟩ :=
      generateTaskId_fresh (s.tasks.map (fun t => t.id)) (s.tasks.length + 1)
    constructor
    · rw [List.map_append]
      refine List.Nodup.append hnodup (List.nodup_singleton _) ?_
      intro x hx hmem
      simp only [List.map_cons, List.map_nil, List.mem_singleton] at hmem
      subst hmem
      exact hfree hx
    · intro _
      refine ⟨n, ?_, ?_⟩
      · rw [List.map_append]
        simp only [List.map_cons, List.map_nil]
        rw [hid]
      · rw [← hid]
        exact hfree

theorem claim_C9_witness :
    (sampleAfterAdd.tasks.map Task.id).Nodup ∧
    (jsTrim "NewTask" ≠ "" →
      ∃ n : Nat, sampleAfterAdd.tasks.map Task.id =
          sampleSchedule.tasks.map Task.id ++ ["task-" ++ Nat.repr n] ∧
        ("task-" ++ Nat.repr n) ∉ sampleSchedule.tasks.map Task.id) :=
  claim_C9_addTask_fresh_ids sampleSchedule sampleAfterAdd "NewTask" "30" ""
    (by decide) (by decide)

/-- C10: no constraint weight sent to the solver is ever 0: a slider value
that fails to parse or parses to 0 is falsy, so `parseInt(...) || default`
silently substitutes the default (100 for the hard constraints, 50 for the
soft ones). -/
theorem claim_C10_weights_never_zero (s : WeightSliders) :
    ((getConstraintWeights s).required_skill ≠ 0 ∧
     (getConstraintWeights s).resource_capacity ≠ 0 ∧
     (getConstraintWeights s).minimize_duration ≠ 0 ∧
     (getConstraintWeights s).balance_load ≠ 0) ∧
    ((parseIntJS s.requiredSkill = none ∨ parseIntJS s.requiredSkill = some 0) →
      (getConstraintWeights s).required_skill = 100) ∧
    ((parseIntJS s.resourceCapacity = none ∨ parseIntJS s.resourceCapacity = some 0) →
      (getConstraintWeights s).resource_capacity = 100) ∧
    ((parseIntJS s.minimizeDuration = none ∨ parseIntJS s.minimizeDuration = some 0) →
      (getConstraintWeights s).minimize_duration = 50) ∧
    ((parseIntJS s.balanceLoad = none ∨ parseIntJS s.balanceLoad = some 0) →
      (getConstraintWeights s).balance_load = 50) := by
  unfold getConstraintWeights
  refine ⟨⟨?_, ?_, ?_, ?_⟩, ?_, ?_, ?_, ?_⟩
  · exact jsOrInt_ne_zero _ _ (by norm_num)
  · exact jsOrInt_ne_zero _ _ (by norm_num)
  · exact jsOrInt_ne_zero _ _ (by norm_num)
  · exact jsOrInt_ne_zero _ _ (by norm_num)
  · exact fun h => jsOrInt_default _ _ h
  · exact fun h => jsOrInt_default _ _ h
  · exact fun h => jsOrInt_default _ _ h
  · exact fun h => jsOrInt_default _ _ h

theorem claim_C10_witness :
    (getConstraintWeights ⟨"0", "abc", " 17", "-3"⟩).required_skill = 100 ∧
    (getConstraintWeights ⟨"0", "abc", " 17", "-3"⟩).resource_capacity = 100 :=
  ⟨(claim_C10_weights_never_zero ⟨"0", "abc", " 17", "-3"⟩).2.1 (Or.inr (by decide)),
   (claim_C10_weights_never_zero ⟨"0", "abc", " 17", "-3"⟩).2.2.1 (Or.inl (by decide))⟩

end SolverForge
